import Mathlib

/-!
# Verification of the citation parser and scoring engine of `app.py`

This file is a shallow embedding of the core of the repository's single
source file `app.py`: the data model (`Ref`, `Song`), the overlap scorer
(`verse_overlap`), the reading matcher (`score_song_for_reading`), the book
name resolver (`normalize_book`) and the citation parser
(`parse_reference_flexible` with its two regex grammars).

Modelling conventions:
* Python strings are modelled as `List Char` (Unicode code points), with
  `String` wrappers at the interfaces.
* Python floats in the scorer are modelled as `ℚ` (all values involved are
  exact decimal fractions, and `inter / union` is exact rational division;
  Python's `0 / n` for `n < 0` is `-0.0 == 0.0`, which agrees with `ℚ`,
  and `n` itself can never be negative while `inter` is positive).
* Python `int` values produced by the parser come from digit strings, hence
  are modelled as `Nat`; the subtractions inside `verse_overlap` are
  performed in `ℤ`, as Python's unbounded-int arithmetic.
* Python's `x is None` checks on optional fields become `= none` tests;
  an access to a field guarded non-`None` becomes `Option.getD` (the
  default is never used under the guard).
* The regex character classes `\s`, `\d`, `\w` and `str.lower` are modelled
  on the ASCII/Latin-1 range actually covered by the patterns' explicit
  character ranges (`A-Za-zÀ-ÖØ-öø-ÿ`); this is faithful for every string
  over that alphabet.
* The two compiled regexes `patt1` and `patt2` are embedded as specialised
  backtracking matchers.  Their character classes are pairwise disjoint at
  every junction point (letters / whitespace / digits / punctuation), so
  Python's leftmost-greedy (resp. lazy, for `bookname+?`) backtracking search
  collapses to the deterministic maximal-run (resp. shortest-split) matchers
  written below; the one place where greedy backtracking could matter
  (`\s+` followed by a class containing `\s`, in `patt2`) cannot arise
  because both grammars run on `_clean`ed text, where every whitespace run
  has length one.
-/

/-- The `Ref` dataclass of `app.py`: a structured scripture reference. -/
structure Ref where
  book : String
  chapter : Option Nat
  v1 : Option Nat
  v2 : Option Nat
  raw : String
  deriving DecidableEq, Repr

/-- The `Song` dataclass of `app.py`. -/
structure Song where
  title : String
  url : String
  refs : List Ref
  cfr_raw : String
  deriving DecidableEq, Repr

/-- The final branch of `verse_overlap` in `app.py`:
`inter = max(0, min(a2, b2) - max(a1, b1) + 1)`,
`union = max(a2, b2) - min(a1, b1) + 1`,
`return inter / union if union else 0.0`. -/
def jaccardFrac (a1 a2 b1 b2 : ℤ) : ℚ :=
  if (max a2 b2 - min a1 b1 + 1) ≠ 0 then
    ((max 0 (min a2 b2 - max a1 b1 + 1) : ℤ) : ℚ) / ((max a2 b2 - min a1 b1 + 1 : ℤ) : ℚ)
  else 0

/-- `verse_overlap` from `app.py`: the chain of early returns becomes an
`if` chain; `a.v2 if a.v2 is not None else a.v1` becomes
`a.v2.getD (a.v1.getD 0)` — the `getD 0` on `v1` is only reached under the
guard `¬(a.v1 = none ∨ b.v1 = none)`, so the junk default is never used. -/
def verse_overlap (a b : Ref) : ℚ :=
  if a.book ≠ b.book then 0
  else if a.chapter = none ∨ b.chapter = none then 0
  else if a.chapter ≠ b.chapter then 0
  else if a.v1 = none ∨ b.v1 = none then 3/10
  else
    jaccardFrac ((a.v1.getD 0 : Nat) : ℤ) ((a.v2.getD (a.v1.getD 0) : Nat) : ℤ)
      ((b.v1.getD 0 : Nat) : ℤ) ((b.v2.getD (b.v1.getD 0) : Nat) : ℤ)

/-- The body of the inner `for sr in song.refs` loop of
`score_song_for_reading` in `app.py`: one update of the running `best`. -/
def bestStep (rr : Ref) (best : ℚ) (sr : Ref) : ℚ :=
  if rr.book ≠ sr.book then best
  else if rr.chapter = none ∨ sr.chapter = none then max best (1/10)
  else if rr.chapter = sr.chapter then max best (verse_overlap rr sr)
  else max best (1/10)

/-- The per-reading-reference `best` computed by the inner loop of
`score_song_for_reading` (accumulator starts at `0.0`). -/
def bestFor (rr : Ref) (srs : List Ref) : ℚ :=
  srs.foldl (bestStep rr) 0

/-- `score_song_for_reading` from `app.py`: `0.0` for an empty reading,
otherwise the sum of per-reference bests, capped by `min(score, 2.5)`. -/
def score_song_for_reading (reading_refs : List Ref) (song : Song) : ℚ :=
  if reading_refs = [] then 0
  else min (reading_refs.foldl (fun sc rr => sc + bestFor rr song.refs) 0) (5/2)

/-!
## Reference definitions written from the specification's words

`specOverlap` follows §4.3 of the spec (ordered rules 1-5), and
`specMatcherScore` follows §4.4 (candidate values, per-reference best as a
maximum over non-skipped candidates, sum capped at 2.5).  They are compared
with the source-derived definitions above in claims C1 and C2.
-/

/-- The Overlap Scorer of spec §4.3, as the ordered rule list is written:
different book → 0; either chapter unknown → 0; different chapters → 0;
either side's verses unknown → 0.30; otherwise the Jaccard-style value
`intersection_length / union_length` with each range's end defaulting to
its start, and a guard returning 0 when `union_length` is zero. -/
def specOverlap (a b : Ref) : ℚ :=
  if a.book ≠ b.book then 0
  else if a.chapter = none ∨ b.chapter = none then 0
  else if a.chapter ≠ b.chapter then 0
  else if a.v1 = none ∨ b.v1 = none then 3/10
  else
    if (max ((a.v2.getD (a.v1.getD 0) : Nat) : ℤ) ((b.v2.getD (b.v1.getD 0) : Nat) : ℤ)
        - min ((a.v1.getD 0 : Nat) : ℤ) ((b.v1.getD 0 : Nat) : ℤ) + 1) = 0 then 0
    else
      ((max 0 (min ((a.v2.getD (a.v1.getD 0) : Nat) : ℤ) ((b.v2.getD (b.v1.getD 0) : Nat) : ℤ)
          - max ((a.v1.getD 0 : Nat) : ℤ) ((b.v1.getD 0 : Nat) : ℤ) + 1) : ℤ) : ℚ) /
      ((max ((a.v2.getD (a.v1.getD 0) : Nat) : ℤ) ((b.v2.getD (b.v1.getD 0) : Nat) : ℤ)
          - min ((a.v1.getD 0 : Nat) : ℤ) ((b.v1.getD 0 : Nat) : ℤ) + 1 : ℤ) : ℚ)

/-- The candidate value of spec §4.4 for one song reference: `none` means
"skipped" (books differ); `0.10` when either chapter is unknown; the overlap
when chapters match; a flat `0.10` when chapters differ. -/
def candidateScore (rr sr : Ref) : Option ℚ :=
  if rr.book ≠ sr.book then none
  else if rr.chapter = none ∨ sr.chapter = none then some (1/10)
  else if rr.chapter = sr.chapter then some (verse_overlap rr sr)
  else some (1/10)

/-- Spec §4.4 per-reference best: the maximum candidate over the song's
references, `0.0` when there is no candidate. -/
def specBest (rr : Ref) (srs : List Ref) : ℚ :=
  (srs.filterMap (candidateScore rr)).foldl max 0

/-- Spec §4.4 total: `0.0` for an empty reading, otherwise the sum of
per-reference bests capped at 2.5. -/
def specMatcherScore (reading : List Ref) (song : Song) : ℚ :=
  if reading = [] then 0
  else min ((reading.map (fun rr => specBest rr song.refs)).sum) (5/2)

/-- The de-duplication key used at the end of `parse_reference_flexible`:
`key = (r.book, r.chapter, r.v1, r.v2)` (the `raw` field is excluded). -/
def Ref.key (r : Ref) : String × Option Nat × Option Nat × Option Nat :=
  (r.book, r.chapter, r.v1, r.v2)

/-!
## The citation parser

Embedding of `normalize_book` and `parse_reference_flexible` from `app.py`.
All recursions are structural or fuelled by the input length (each step
consumes at least one character, so a fuel of `length + 1` never runs out);
no definition is `partial`, so every concrete parse can be evaluated by
`decide`/`rfl`.
-/

/-- Python's `\s` (whitespace) on the Latin-1 range. -/
def pyIsSpace (c : Char) : Bool :=
  c = ' ' || c = '\t' || c = '\n' || c = '\x0b' || c = '\x0c' || c = '\r' ||
  c = '\x1c' || c = '\x1d' || c = '\x1e' || c = '\x1f' || c = '\x85' || c = '\xa0'

/-- Python's `\d` restricted to ASCII digits (the only digits `int()` is fed
by these patterns on the catalogue's alphabet). -/
def pyIsDigit (c : Char) : Bool :=
  '0' ≤ c && c ≤ '9'

/-- The letter class `[A-Za-zÀ-ÖØ-öø-ÿ]` that both patterns use. -/
def latinLetter (c : Char) : Bool :=
  ('A' ≤ c && c ≤ 'Z') || ('a' ≤ c && c ≤ 'z') ||
  ('À' ≤ c && c ≤ 'Ö') || ('Ø' ≤ c && c ≤ 'ö') || ('ø' ≤ c && c ≤ 'ÿ')

/-- Python's `\w` (word character, for `\b`) on the same alphabet. -/
def pyIsWord (c : Char) : Bool :=
  latinLetter c || pyIsDigit c || c = '_'

/-- Python's `str.lower` on ASCII and Latin-1 (uppercase `À`-`Þ` except the
multiplication sign shift by 32, like ASCII). -/
def pyToLower (c : Char) : Char :=
  if 'A' ≤ c && c ≤ 'Z' then Char.ofNat (c.toNat + 32)
  else if ('À' ≤ c && c ≤ 'Þ') && c ≠ '×' then Char.ofNat (c.toNat + 32)
  else c

/-- The book-token class of `patt1`: `[A-Za-zÀ-ÖØ-öø-ÿ\.]`. -/
def isBookChar (c : Char) : Bool :=
  latinLetter c || c = '.'

/-- The book-name class of `patt2`: `[A-Za-zÀ-ÖØ-öø-ÿ\s]`. -/
def isBooknameChar (c : Char) : Bool :=
  latinLetter c || pyIsSpace c

/-- The verse-text class of `patt2`: `[\d\s\-–e]`. -/
def isVtextChar (c : Char) : Bool :=
  pyIsDigit c || pyIsSpace c || c = '-' || c = '–' || c = 'e'

/-- The first alternative of the `verses` group of `patt1`: `[\d\-–]`. -/
def isVersesAlt1Char (c : Char) : Bool :=
  pyIsDigit c || c = '-' || c = '–'

def isWordOpt : Option Char → Bool
  | none => false
  | some c => pyIsWord c

def headIsWord : List Char → Bool
  | [] => false
  | c :: _ => pyIsWord c

/-- The regex word boundary `\b` between a previous character and the rest
of the input: exactly one of the two sides is a word character. -/
def atBoundary (prev : Option Char) (s : List Char) : Bool :=
  isWordOpt prev != headIsWord s

def prevNotWord : Option Char → Bool
  | none => true
  | some p => !pyIsWord p

def notWordAt : List Char → Bool
  | [] => true
  | c :: _ => !pyIsWord c

/-- `s.strip()`: drop leading and trailing whitespace. -/
def pyStrip (s : List Char) : List Char :=
  (((s.dropWhile pyIsSpace).reverse).dropWhile pyIsSpace).reverse

/-- `re.sub(r"\s+", " ", ·)`: collapse every whitespace run to one space. -/
def collapseWs : List Char → List Char
  | [] => []
  | [c] => [if pyIsSpace c then ' ' else c]
  | c :: d :: rest =>
    if pyIsSpace c && pyIsSpace d then collapseWs (d :: rest)
    else (if pyIsSpace c then ' ' else c) :: collapseWs (d :: rest)

/-- `_clean` from `app.py`: `re.sub(r"\s+", " ", s.strip())`. -/
def pyClean (s : List Char) : List Char :=
  collapseWs (pyStrip s)

/-- `int()` on a digit string. -/
def digitsToNat (ds : List Char) : Nat :=
  ds.foldl (fun n c => 10 * n + (c.toNat - '0'.toNat)) 0

/-- `str.replace(pat, rep)`: replace all non-overlapping occurrences, left
to right (fuelled by the input length). -/
def strReplaceGo (pat rep : List Char) : Nat → List Char → List Char
  | 0, s => s
  | _ + 1, [] => []
  | fuel + 1, c :: rest =>
    if !pat.isEmpty && pat.isPrefixOf (c :: rest) then
      rep ++ strReplaceGo pat rep fuel (List.drop (pat.length - 1) rest)
    else
      c :: strReplaceGo pat rep fuel rest

def strReplace (s pat rep : List Char) : List Char :=
  strReplaceGo pat rep s.length s

/-- `re.sub(r"\bcapitolo\b", "", ·)`: remove each boundary-delimited
occurrence of "capitolo". Boundaries are evaluated on the original string
(the scan continues past each removed occurrence carrying its last
character as the previous character). -/
def subCapitoloGo : Nat → Option Char → List Char → List Char
  | 0, _, s => s
  | _ + 1, _, [] => []
  | fuel + 1, prev, c :: rest =>
    if prevNotWord prev && (String.toList "capitolo").isPrefixOf (c :: rest)
        && notWordAt ((c :: rest).drop 8) then
      subCapitoloGo fuel (some 'o') ((c :: rest).drop 8)
    else
      c :: subCapitoloGo fuel (some c) rest

/-- `re.sub(r"\bvv?\b", "", ·)`: remove each boundary-delimited "vv" or "v"
(greedy: "vv" is tried first; a single "v" requires a non-word follower). -/
def subVVGo : Nat → Option Char → List Char → List Char
  | 0, _, s => s
  | _ + 1, _, [] => []
  | fuel + 1, prev, c :: rest =>
    if prevNotWord prev && c = 'v' then
      match rest with
      | [] => []
      | d :: rest2 =>
        if d = 'v' && notWordAt rest2 then subVVGo fuel (some 'v') rest2
        else if !pyIsWord d then subVVGo fuel (some 'v') rest
        else c :: subVVGo fuel (some c) rest
    else c :: subVVGo fuel (some c) rest

/-- `re.sub(r"^i\s+corinzi$", "1 corinzi", ·)` (fully anchored). -/
def fixCorinzi1 (s : List Char) : List Char :=
  match s with
  | 'i' :: rest =>
    if !(rest.takeWhile pyIsSpace).isEmpty
        && rest.dropWhile pyIsSpace = String.toList "corinzi" then
      String.toList "1 corinzi"
    else s
  | _ => s

/-- `re.sub(r"^ii\s+corinzi$", "2 corinzi", ·)` (fully anchored). -/
def fixCorinzi2 (s : List Char) : List Char :=
  match s with
  | 'i' :: 'i' :: rest =>
    if !(rest.takeWhile pyIsSpace).isEmpty
        && rest.dropWhile pyIsSpace = String.toList "corinzi" then
      String.toList "2 corinzi"
    else s
  | _ => s

/-- The `BOOK_ALIASES` table of `app.py`, in source order. -/
def BOOK_ALIASES : List (String × String) :=
  [("genesi", "gen"), ("gen", "gen"), ("gn", "gen"),
   ("esodo", "es"), ("es", "es"),
   ("numeri", "nm"), ("nm", "nm"),
   ("deuteronomio", "dt"), ("dt", "dt"),
   ("giosuè", "gs"), ("gs", "gs"),
   ("giudici", "gd"), ("gd", "gd"),
   ("tobia", "tb"), ("tb", "tb"),
   ("salmi", "sal"), ("salmo", "sal"), ("sal", "sal"),
   ("qoelet", "qo"), ("qo", "qo"), ("ecclesiaste", "qo"),
   ("cantico dei cantici", "ct"), ("cantico", "ct"), ("ct", "ct"),
   ("isaia", "is"), ("is", "is"),
   ("geremia", "ger"), ("ger", "ger"), ("jr", "ger"),
   ("lamentazioni", "lam"), ("lam", "lam"),
   ("ezechiele", "ez"), ("ez", "ez"),
   ("daniele", "dn"), ("dn", "dn"),
   ("matteo", "mt"), ("mt", "mt"),
   ("marco", "mc"), ("mc", "mc"),
   ("luca", "lc"), ("lc", "lc"),
   ("giovanni", "gv"), ("gv", "gv"),
   ("atti", "at"), ("at", "at"), ("atti degli apostoli", "at"),
   ("romani", "rm"), ("rom", "rm"), ("rm", "rm"),
   ("1 corinzi", "1cor"), ("1cor", "1cor"), ("i corinzi", "1cor"),
   ("2 corinzi", "2cor"), ("2cor", "2cor"), ("ii corinzi", "2cor"),
   ("efesini", "ef"), ("ef", "ef"),
   ("filippesi", "fil"), ("fil", "fil"),
   ("colossesi", "col"), ("col", "col"),
   ("apocalisse", "ap"), ("ap", "ap")]

/-- The `BOOK_SHORT` table of `app.py`, in source order. -/
def BOOK_SHORT : List (String × String) :=
  [("gen", "gen"), ("gn", "gen"),
   ("es", "es"), ("nm", "nm"), ("dt", "dt"), ("gs", "gs"), ("gd", "gd"),
   ("tb", "tb"), ("sal", "sal"), ("qo", "qo"), ("ct", "ct"), ("is", "is"),
   ("ger", "ger"), ("jr", "ger"), ("lam", "lam"), ("ez", "ez"), ("dn", "dn"),
   ("mt", "mt"), ("mc", "mc"), ("lc", "lc"), ("gv", "gv"), ("at", "at"),
   ("rm", "rm"), ("1cor", "1cor"), ("2cor", "2cor"), ("ef", "ef"),
   ("fil", "fil"), ("col", "col"), ("ap", "ap")]

/-- `normalize_book` from `app.py`: clean, lowercase, strip periods,
normalise the apostrophe, remove `\bcapitolo\b` and `\bvv?\b` (stripping
after each), strip the leading phrases, rewrite the roman-numeral Corinthian
forms, then look the result up in `BOOK_ALIASES` and `BOOK_SHORT`. -/
def normalize_book (token : String) : Option String :=
  let t0 := (pyClean token.toList).map pyToLower
  let t1 := strReplace t0 (String.toList ".") []
  let t2 := strReplace t1 (String.toList "’") (String.toList "'")
  let t3 := pyStrip (subCapitoloGo (t2.length + 1) none t2)
  let t4 := pyStrip (subVVGo (t3.length + 1) none t3)
  let t5 := strReplace t4 (String.toList "lettera ai ") []
  let t6 := strReplace t5 (String.toList "lettera agli ") []
  let t7 := strReplace t6 (String.toList "vangelo di ") []
  let t8 := fixCorinzi2 (fixCorinzi1 t7)
  match List.lookup (String.mk t8) BOOK_ALIASES with
  | some v => some v
  | none => List.lookup (String.mk t8) BOOK_SHORT

/-- `re.match(r"^\d+\s*[\-–]\s*\d+$", v)` together with the subsequent
`re.split`/`int` extraction: a hyphenated verse range. -/
def parseHyphenRange (v : List Char) : Option (Nat × Nat) :=
  let d1 := v.takeWhile pyIsDigit
  if d1.isEmpty then none
  else
    let s1 := v.drop d1.length
    let s2 := s1.drop (s1.takeWhile pyIsSpace).length
    match s2 with
    | h :: s3 =>
      if h = '-' || h = '–' then
        let s4 := s3.drop (s3.takeWhile pyIsSpace).length
        let d2 := s4.takeWhile pyIsDigit
        if !d2.isEmpty && (s4.drop d2.length).isEmpty then
          some (digitsToNat d1, digitsToNat d2)
        else none
      else none
    | [] => none

/-- `re.match(r"^\d+\s*e\s*\d+$", v)` with the `re.split("e")`/`int`
extraction: a spelled-out verse range "N e M". -/
def parseERange (v : List Char) : Option (Nat × Nat) :=
  let d1 := v.takeWhile pyIsDigit
  if d1.isEmpty then none
  else
    let s1 := v.drop d1.length
    let s2 := s1.drop (s1.takeWhile pyIsSpace).length
    match s2 with
    | h :: s3 =>
      if h = 'e' then
        let s4 := s3.drop (s3.takeWhile pyIsSpace).length
        let d2 := s4.takeWhile pyIsDigit
        if !d2.isEmpty && (s4.drop d2.length).isEmpty then
          some (digitsToNat d1, digitsToNat d2)
        else none
      else none
    | [] => none

/-- The verse-specifier processing of Grammar A (`app.py`, the body of the
`if verses:` block): strip and lowercase the capture, treat "ss" as unknown
verses, then try hyphenated range, spelled-out range, bare number, and fall
back to unknown verses. -/
def parseVersesCaptureA (vs : List Char) : Option Nat × Option Nat :=
  let v := (pyStrip vs).map pyToLower
  if v = ['s', 's'] then (none, none)
  else
    match parseHyphenRange v with
    | some (x, y) => (some x, some y)
    | none =>
      match parseERange v with
      | some (x, y) => (some x, some y)
      | none =>
        if !v.isEmpty && v.all pyIsDigit then
          (some (digitsToNat v), some (digitsToNat v))
        else (none, none)

/-- The verse-text processing of Grammar B (`app.py`, the body of the
`if vtext:` block): `_clean` the capture, then the same three shapes (no
"ss" case in this grammar). -/
def parseVersesCaptureB (vs : List Char) : Option Nat × Option Nat :=
  let v := pyClean vs
  match parseHyphenRange v with
  | some (x, y) => (some x, some y)
  | none =>
    match parseERange v with
    | some (x, y) => (some x, some y)
    | none =>
      if !v.isEmpty && v.all pyIsDigit then
        (some (digitsToNat v), some (digitsToNat v))
      else (none, none)

/-- The ordered alternation of the `verses` group of `patt1`:
`[\d\-–]+ | [\d]+(?:\s*e\s*[\d]+)? | ss` (case-insensitive).  Returns the
capture and the remaining input.  Note the second alternative can never fire:
any input it accepts starts with a digit, which the first alternative already
accepts (it is embedded anyway, faithfully to the pattern text). -/
def versesAlt (s : List Char) : Option (List Char × List Char) :=
  let r1 := s.takeWhile isVersesAlt1Char
  if !r1.isEmpty then some (r1, s.drop r1.length)
  else
    let d1 := s.takeWhile pyIsDigit
    if !d1.isEmpty then
      let s1 := s.drop d1.length
      let sp1 := s1.takeWhile pyIsSpace
      let s2 := s1.drop sp1.length
      match s2 with
      | c :: s3 =>
        if c = 'e' || c = 'E' then
          let sp2 := s3.takeWhile pyIsSpace
          let s4 := s3.drop sp2.length
          let d2 := s4.takeWhile pyIsDigit
          if !d2.isEmpty then some (d1 ++ sp1 ++ c :: (sp2 ++ d2), s4.drop d2.length)
          else some (d1, s1)
        else some (d1, s1)
      | [] => some (d1, s1)
    else
      match s with
      | a :: b :: rest =>
        if (a = 's' || a = 'S') && (b = 's' || b = 'S') then some ([a, b], rest)
        else none
      | _ => none

/-- The optional group `(?:\s*,\s*(?P<verses>...))?` of `patt1`: returns
(matched text, verses capture, rest) when the group matches. -/
def tryCommaVerses (s : List Char) : Option (List Char × List Char × List Char) :=
  let sp1 := s.takeWhile pyIsSpace
  match s.drop sp1.length with
  | ',' :: s2 =>
    let sp2 := s2.takeWhile pyIsSpace
    let s3 := s2.drop sp2.length
    match versesAlt s3 with
    | some (cap, rest) => some (sp1 ++ ',' :: (sp2 ++ cap), cap, rest)
    | none => none
  | _ => none

/-- One match of `patt1` (Grammar A): captures and remaining input. -/
structure M1 where
  book : List Char
  chap : List Char
  verses : Option (List Char)
  raw : List Char
  rest : List Char
  deriving DecidableEq, Repr

/-- Attempt to match `patt1` at the current position:
`\b ((?:[12]\s*)? [letters]{1,10}) \s+ (\d{1,3}) (?:\s*,\s*(verses))?`.
The letter run must be between 1 and 10 characters and (because the letter
class is disjoint from `\s` and `\d`) must be the whole maximal run; the
chapter is the first 1-3 characters of the digit run; the optional verse
group is greedy. -/
def matchPatt1At (prev : Option Char) (s : List Char) : Option M1 :=
  if !atBoundary prev s then none
  else
    let bookPart : Option (List Char × List Char) :=
      match s with
      | [] => none
      | c :: s1 =>
        if c = '1' || c = '2' then
          let sp := s1.takeWhile pyIsSpace
          let s2 := s1.drop sp.length
          let ls := s2.takeWhile isBookChar
          if 1 ≤ ls.length && ls.length ≤ 10 then some (c :: (sp ++ ls), s2.drop ls.length)
          else none
        else
          let ls := (c :: s1).takeWhile isBookChar
          if 1 ≤ ls.length && ls.length ≤ 10 then some (ls, (c :: s1).drop ls.length)
          else none
    match bookPart with
    | none => none
    | some (bk, s3) =>
      let ws := s3.takeWhile pyIsSpace
      if ws.isEmpty then none
      else
        let s4 := s3.drop ws.length
        let ds := s4.takeWhile pyIsDigit
        if ds.isEmpty then none
        else
          let chapDs := ds.take 3
          let s5 := s4.drop chapDs.length
          match tryCommaVerses s5 with
          | some (mid, cap, rest) => some ⟨bk, chapDs, some cap, bk ++ ws ++ chapDs ++ mid, rest⟩
          | none => some ⟨bk, chapDs, none, bk ++ ws ++ chapDs, s5⟩

/-- `patt1.finditer`: scan left to right, at each position try to match;
on success continue after the match (all matches are nonempty). -/
def patt1ScanGo : Nat → Option Char → List Char → List M1
  | 0, _, _ => []
  | _ + 1, _, [] => []
  | fuel + 1, prev, c :: rest =>
    match matchPatt1At prev (c :: rest) with
    | some m => m :: patt1ScanGo fuel m.raw.getLast? m.rest
    | none => patt1ScanGo fuel (some c) rest

def patt1Matches (t : List Char) : List M1 :=
  patt1ScanGo (t.length + 1) none t

/-- The body of the `for m in patt1.finditer(t)` loop of `app.py`: clean the
book capture, resolve it (spaces stripped first, then with original
spacing), discard the match if unresolvable, parse the verse capture. -/
def refOfM1 (m : M1) : Option Ref :=
  let bookRaw := pyClean m.book
  match (match normalize_book (String.mk ((bookRaw.map pyToLower).filter (fun c => c != ' '))) with
         | some k => some k
         | none => normalize_book (String.mk bookRaw)) with
  | none => none
  | some key =>
    match m.verses with
    | none => some (Ref.mk key (some (digitsToNat m.chap)) none none (String.mk m.raw))
    | some vs =>
      some (Ref.mk key (some (digitsToNat m.chap)) (parseVersesCaptureA vs).1
        (parseVersesCaptureA vs).2 (String.mk m.raw))

/-- Grammar A of `parse_reference_flexible`: all `patt1` matches over the
cleaned text, resolved and converted; unresolvable books are skipped. -/
def grammarA (t : List Char) : List Ref :=
  (patt1Matches t).filterMap refOfM1

/-- One match of `patt2` (Grammar B): captures and remaining input. -/
structure M2 where
  bookname : List Char
  chap : List Char
  vtext : Option (List Char)
  raw : List Char
  rest : List Char
  deriving DecidableEq, Repr

/-- After `v{1,2}`: `\s+([\d\s\-–e]+)` — one or more spaces, then the verse
text capture (nonempty run of the verse-text class). -/
def vtailAfter (s2 : List Char) : Option (List Char × List Char × List Char) :=
  let sp2 := s2.takeWhile pyIsSpace
  if sp2.isEmpty then none
  else
    let s3 := s2.drop sp2.length
    let cap := s3.takeWhile isVtextChar
    if cap.isEmpty then none
    else some (sp2 ++ cap, cap, s3.drop cap.length)

/-- The optional group `(?:\s+v{1,2}\s+(?P<vtext>[\d\s\-–e]+))?` of `patt2`
(greedy: "vv" is preferred; if its tail fails, the single-"v" retry also
fails because the character after the first "v" is another "v", not
whitespace). -/
def tryVPart (s : List Char) : Option (List Char × List Char × List Char) :=
  let sp1 := s.takeWhile pyIsSpace
  if sp1.isEmpty then none
  else
    match s.drop sp1.length with
    | 'v' :: 'v' :: s2 =>
      (match vtailAfter s2 with
       | some (mid, cap, rest) => some (sp1 ++ 'v' :: 'v' :: mid, cap, rest)
       | none => none)
    | 'v' :: s2 =>
      (match vtailAfter s2 with
       | some (mid, cap, rest) => some (sp1 ++ 'v' :: mid, cap, rest)
       | none => none)
    | _ => none

/-- The part of `patt2` after the lazy book name:
`\s+dal\s+capitolo\s+(\d{1,3})` followed by the optional verse group.
Returns (matched text, chapter digits, verse capture, rest). -/
def matchTailB (s : List Char) : Option (List Char × List Char × Option (List Char) × List Char) :=
  let sp1 := s.takeWhile pyIsSpace
  if sp1.isEmpty then none
  else
    let s1 := s.drop sp1.length
    if (String.toList "dal").isPrefixOf s1 then
      let s2 := s1.drop 3
      let sp2 := s2.takeWhile pyIsSpace
      if sp2.isEmpty then none
      else
        let s3 := s2.drop sp2.length
        if (String.toList "capitolo").isPrefixOf s3 then
          let s4 := s3.drop 8
          let sp3 := s4.takeWhile pyIsSpace
          if sp3.isEmpty then none
          else
            let s5 := s4.drop sp3.length
            let ds := s5.takeWhile pyIsDigit
            if ds.isEmpty then none
            else
              let chapDs := ds.take 3
              let s6 := s5.drop chapDs.length
              let stem := sp1 ++ String.toList "dal" ++ sp2 ++ String.toList "capitolo"
                ++ sp3 ++ chapDs
              match tryVPart s6 with
              | some (mid, cap, rest) => some (stem ++ mid, chapDs, some cap, rest)
              | none => some (stem, chapDs, none, s6)
        else none
    else none

/-- The lazy book name `(?P<bookname>[A-Za-zÀ-ÖØ-öø-ÿ\s]+?)` of `patt2`:
grow the book name one class character at a time (shortest first, as `+?`
does) until the tail matches. -/
def booknameGo : Nat → List Char → List Char → Option M2
  | 0, _, _ => none
  | _ + 1, _, [] => none
  | fuel + 1, acc, c :: rest =>
    if isBooknameChar c then
      match matchTailB rest with
      | some (mid, chapDs, cap, rest2) =>
        some ⟨acc ++ [c], chapDs, cap, (acc ++ [c]) ++ mid, rest2⟩
      | none => booknameGo fuel (acc ++ [c]) rest
    else none

def matchPatt2At (prev : Option Char) (s : List Char) : Option M2 :=
  if atBoundary prev s then booknameGo (s.length + 1) [] s else none

/-- `patt2.finditer` over the lowercased cleaned text. -/
def patt2ScanGo : Nat → Option Char → List Char → List M2
  | 0, _, _ => []
  | _ + 1, _, [] => []
  | fuel + 1, prev, c :: rest =>
    match matchPatt2At prev (c :: rest) with
    | some m => m :: patt2ScanGo fuel m.raw.getLast? m.rest
    | none => patt2ScanGo fuel (some c) rest

def patt2Matches (t : List Char) : List M2 :=
  patt2ScanGo (t.length + 1) none t

/-- The body of the `for m in patt2.finditer(t_low)` loop of `app.py`. -/
def refOfM2 (m : M2) : Option Ref :=
  let bookname := pyClean m.bookname
  match normalize_book (String.mk bookname) with
  | none => none
  | some key =>
    match m.vtext with
    | none => some (Ref.mk key (some (digitsToNat m.chap)) none none (String.mk m.raw))
    | some vt =>
      some (Ref.mk key (some (digitsToNat m.chap)) (parseVersesCaptureB vt).1
        (parseVersesCaptureB vt).2 (String.mk m.raw))

/-- Grammar B of `parse_reference_flexible` (the discursive style). -/
def grammarB (tLow : List Char) : List Ref :=
  (patt2Matches tLow).filterMap refOfM2

/-- The "dedup grezzo" loop at the end of `parse_reference_flexible`: keep
the first occurrence of each `(book, chapter, v1, v2)` key, preserving
order; `seen` is the set of keys already emitted. -/
def dedupRefs : List (String × Option Nat × Option Nat × Option Nat) → List Ref → List Ref
  | _, [] => []
  | seen, r :: rest =>
    if r.key ∈ seen then dedupRefs seen rest
    else r :: dedupRefs (r.key :: seen) rest

/-- The concatenation of both grammars' results before de-duplication
(Grammar A over the cleaned text `t`, Grammar B over `t_low = t.lower()`). -/
def rawRefStream (text : String) : List Ref :=
  grammarA (pyClean text.toList) ++ grammarB ((pyClean text.toList).map pyToLower)

/-- `parse_reference_flexible` from `app.py`: both grammars' results
concatenated, then de-duplicated by `(book, chapter, v1, v2)`. -/
def parse_reference_flexible (text : String) : List Ref :=
  dedupRefs [] (rawRefStream text)

/-!
## Scorer lemmas
-/

/-- The Jaccard fraction is nonnegative: the intersection length is clamped
at 0 and, whenever it is positive, the union length is at least as large
(so a negative union forces a zero intersection, and `0 / union = 0`). -/
theorem jaccardFrac_nonneg (a1 a2 b1 b2 : ℤ) : 0 ≤ jaccardFrac a1 a2 b1 b2 := by
  unfold jaccardFrac
  split_ifs with h
  · have h1 : min a2 b2 ≤ max a2 b2 := min_le_max
    have h2 : min a1 b1 ≤ max a1 b1 := min_le_max
    rcases le_or_lt (min a2 b2 - max a1 b1 + 1) 0 with hx | hx
    · rw [max_eq_left hx]
      simp
    · have hu : 0 < max a2 b2 - min a1 b1 + 1 := by omega
      rw [max_eq_right (le_of_lt hx)]
      exact div_nonneg (by exact_mod_cast le_of_lt hx) (by exact_mod_cast le_of_lt hu)
  · exact le_refl 0

theorem verse_overlap_nonneg (a b : Ref) : 0 ≤ verse_overlap a b := by
  unfold verse_overlap
  split_ifs with h1 h2 h3 h4
  · exact le_refl 0
  · exact le_refl 0
  · exact le_refl 0
  · norm_num
  · exact jaccardFrac_nonneg _ _ _ _

/-- A well-ordered range compared with itself has Jaccard fraction 1. -/
theorem jaccardFrac_self (a1 a2 : ℤ) (h : a1 ≤ a2) : jaccardFrac a1 a2 a1 a2 = 1 := by
  unfold jaccardFrac
  rw [min_self, max_self, min_self, max_self]
  have hpos : 0 < a2 - a1 + 1 := by omega
  rw [max_eq_right (by omega), if_pos (by omega)]
  rw [div_self]
  exact_mod_cast (by omega : a2 - a1 + 1 ≠ 0)

theorem bestStep_le (rr : Ref) (best : ℚ) (sr : Ref) : best ≤ bestStep rr best sr := by
  unfold bestStep
  split_ifs <;> first | exact le_refl _ | exact le_max_left _ _

theorem foldl_bestStep_ge (rr : Ref) (srs : List Ref) :
    ∀ acc : ℚ, acc ≤ srs.foldl (bestStep rr) acc := by
  induction srs with
  | nil => intro acc; exact le_refl _
  | cons sr rest ih => intro acc; exact le_trans (bestStep_le rr acc sr) (ih _)

theorem bestFor_nonneg (rr : Ref) (srs : List Ref) : 0 ≤ bestFor rr srs :=
  foldl_bestStep_ge rr srs 0

theorem foldl_sum_ge (srs : List Ref) (l : List Ref) :
    ∀ acc : ℚ, acc ≤ l.foldl (fun sc rr => sc + bestFor rr srs) acc := by
  induction l with
  | nil => intro acc; exact le_refl _
  | cons rr rest ih =>
    intro acc
    exact le_trans (le_add_of_nonneg_right (bestFor_nonneg rr srs)) (ih _)

theorem foldl_bestStep_eq (rr : Ref) (srs : List Ref) : ∀ acc : ℚ,
    srs.foldl (bestStep rr) acc = (srs.filterMap (candidateScore rr)).foldl max acc := by
  induction srs with
  | nil => intro acc; rfl
  | cons sr rest ih =>
    intro acc
    by_cases h1 : rr.book = sr.book
    · by_cases h2 : rr.chapter = none ∨ sr.chapter = none
      · have hc : candidateScore rr sr = some (1/10) := by
          unfold candidateScore
          rw [if_neg (by simp [h1]), if_pos h2]
        have hb : bestStep rr acc sr = max acc (1/10) := by
          unfold bestStep
          rw [if_neg (by simp [h1]), if_pos h2]
        simp only [List.foldl_cons, List.filterMap_cons, hb, hc, ih]
      · by_cases h3 : rr.chapter = sr.chapter
        · have hc : candidateScore rr sr = some (verse_overlap rr sr) := by
            unfold candidateScore
            rw [if_neg (by simp [h1]), if_neg h2, if_pos h3]
          have hb : bestStep rr acc sr = max acc (verse_overlap rr sr) := by
            unfold bestStep
            rw [if_neg (by simp [h1]), if_neg h2, if_pos h3]
          simp only [List.foldl_cons, List.filterMap_cons, hb, hc, ih]
        · have hc : candidateScore rr sr = some (1/10) := by
            unfold candidateScore
            rw [if_neg (by simp [h1]), if_neg h2, if_neg h3]
          have hb : bestStep rr acc sr = max acc (1/10) := by
            unfold bestStep
            rw [if_neg (by simp [h1]), if_neg h2, if_neg h3]
          simp only [List.foldl_cons, List.filterMap_cons, hb, hc, ih]
    · have hc : candidateScore rr sr = none := by
        unfold candidateScore
        rw [if_pos h1]
      have hb : bestStep rr acc sr = acc := by
        unfold bestStep
        rw [if_pos h1]
      simp only [List.foldl_cons, List.filterMap_cons, hb, hc, ih]

theorem bestFor_eq_specBest (rr : Ref) (srs : List Ref) :
    bestFor rr srs = specBest rr srs :=
  foldl_bestStep_eq rr srs 0

theorem foldl_score_sum (srs : List Ref) (l : List Ref) : ∀ acc : ℚ,
    l.foldl (fun sc rr => sc + bestFor rr srs) acc
      = acc + (l.map (fun rr => specBest rr srs)).sum := by
  induction l with
  | nil => intro acc; simp
  | cons rr rest ih =>
    intro acc
    rw [List.foldl_cons, ih, List.map_cons, List.sum_cons, bestFor_eq_specBest]
    ring

/-!
## Claim theorems for the scorer
-/

/-- C1: the reading-matcher score of `score_song_for_reading` equals the
reference definition of spec §4.4: 0 for an empty reading; otherwise, for
every reading reference the per-reference best is the maximum over the
song's references of a candidate that is skipped when books differ, is 0.10
when either chapter is unknown, is `overlap(rr, sr)` when books and chapters
match, and is a flat 0.10 when chapters differ; the total is the sum of the
per-reference bests capped at 2.5, and a per-reference best with no
candidate is 0. -/
theorem c1_score_matches_spec (reading : List Ref) (song : Song) :
    score_song_for_reading reading song = specMatcherScore reading song := by
  unfold score_song_for_reading specMatcherScore
  split_ifs with h
  · rfl
  · rw [foldl_score_sum, zero_add]

/-- C2: `verse_overlap` equals the reference definition of spec §4.3 given
by the ordered rules (different book → 0; unknown chapter → 0; different
chapters → 0; unknown verses → 0.30; otherwise the Jaccard-style
`intersection_length / union_length` with ends defaulting to starts and a
guard on a zero union). -/
theorem c2_overlap_matches_spec (a b : Ref) : verse_overlap a b = specOverlap a b := by
  unfold verse_overlap specOverlap jaccardFrac
  split_ifs <;> first | rfl | simp_all

/-- C4 counterexample: the reference `{book := "is", chapter := 1, v1 := 2,
v2 := 1}` has a known chapter and a known `v1`, yet `overlap(a, a) ≠ 1.0`
(the inverted range makes `union = 0`, so the guard returns `0.0`): the
claim as stated, with no precondition relating `v1` and `v2`, is false. -/
theorem c4_counterexample :
    (Ref.mk "is" (some 1) (some 2) (some 1) "").chapter.isSome = true ∧
    (Ref.mk "is" (some 1) (some 2) (some 1) "").v1.isSome = true ∧
    verse_overlap (Ref.mk "is" (some 1) (some 2) (some 1) "")
      (Ref.mk "is" (some 1) (some 2) (some 1) "") ≠ 1 := by
  refine ⟨rfl, rfl, ?_⟩
  decide

/-- C4 (amended): `overlap(a, a) = 1.0` whenever `a.chapter` and `a.v1` are
known and the verse range is not inverted (the end `v2`, defaulting to the
start `v1`, is at least `v1`). -/
theorem c4_overlap_self_eq_one (a : Ref)
    (hc : a.chapter.isSome = true) (hv : a.v1.isSome = true)
    (hord : a.v1.getD 0 ≤ a.v2.getD (a.v1.getD 0)) :
    verse_overlap a a = 1 := by
  obtain ⟨ab, ac, av1, av2, ar⟩ := a
  rcases ac with _ | ca
  · simp at hc
  rcases av1 with _ | x
  · simp at hv
  simp only [Option.getD_some] at hord
  unfold verse_overlap
  rw [if_neg (by simp), if_neg (by simp), if_neg (by simp), if_neg (by simp)]
  simp only [Option.getD_some]
  exact jaccardFrac_self _ _ (by exact_mod_cast hord)

/-- Witness for C4 (amended), at the concrete reference
`{book := "is", chapter := 1, v1 := 2, v2 := 3}`. -/
theorem c4_overlap_self_eq_one_witness :
    verse_overlap (Ref.mk "is" (some 1) (some 2) (some 3) "w")
      (Ref.mk "is" (some 1) (some 2) (some 3) "w") = 1 :=
  c4_overlap_self_eq_one (Ref.mk "is" (some 1) (some 2) (some 3) "w") rfl rfl (by decide)

/-- C6: for every reading and song the matcher's score lies in `[0, 2.5]`
(in particular it is never negative, also for references with inverted
verse ranges, which `jaccardFrac_nonneg` covers). -/
theorem c6_score_in_range (reading : List Ref) (song : Song) :
    0 ≤ score_song_for_reading reading song ∧ score_song_for_reading reading song ≤ 5/2 := by
  unfold score_song_for_reading
  split_ifs with h
  · norm_num
  · exact ⟨le_min (foldl_sum_ge song.refs reading 0) (by norm_num), min_le_right _ _⟩

/-- C9: the score is monotone non-decreasing in the reading references —
appending one more reading reference can only raise (or keep) the score. -/
theorem c9_score_monotone_append (reading : List Ref) (r : Ref) (song : Song) :
    score_song_for_reading reading song ≤ score_song_for_reading (reading ++ [r]) song := by
  unfold score_song_for_reading
  rcases reading with _ | ⟨r0, rest⟩
  · rw [if_pos rfl, List.nil_append, if_neg (by simp)]
    refine le_min ?_ (by norm_num)
    simpa using bestFor_nonneg r song.refs
  · rw [if_neg (by simp), if_neg (by simp)]
    rw [List.foldl_append]
    simp only [List.foldl_cons, List.foldl_nil]
    exact min_le_min (le_add_of_nonneg_right (bestFor_nonneg r song.refs)) (le_refl _)

/-!
## Noninterference of display-only fields (claim C10)
-/

theorem key_fields {a b : Ref} (h : Ref.key a = Ref.key b) :
    a.book = b.book ∧ a.chapter = b.chapter ∧ a.v1 = b.v1 ∧ a.v2 = b.v2 := by
  unfold Ref.key at h
  simp only [Prod.mk.injEq] at h
  exact ⟨h.1, h.2.1, h.2.2.1, h.2.2.2⟩

theorem verse_overlap_key_congr {a1 a2 b1 b2 : Ref}
    (ha : Ref.key a1 = Ref.key a2) (hb : Ref.key b1 = Ref.key b2) :
    verse_overlap a1 b1 = verse_overlap a2 b2 := by
  obtain ⟨hab, hac, hav1, hav2⟩ := key_fields ha
  obtain ⟨hbb, hbc, hbv1, hbv2⟩ := key_fields hb
  unfold verse_overlap
  rw [hab, hac, hav1, hav2, hbb, hbc, hbv1, hbv2]

theorem bestStep_key_congr {rr1 rr2 sr1 sr2 : Ref}
    (hr : Ref.key rr1 = Ref.key rr2) (hs : Ref.key sr1 = Ref.key sr2) (acc : ℚ) :
    bestStep rr1 acc sr1 = bestStep rr2 acc sr2 := by
  obtain ⟨hab, hac, _, _⟩ := key_fields hr
  obtain ⟨hbb, hbc, _, _⟩ := key_fields hs
  unfold bestStep
  rw [hab, hac, hbb, hbc, verse_overlap_key_congr hr hs]

theorem bestFor_key_congr {rr1 rr2 : Ref} (hr : Ref.key rr1 = Ref.key rr2)
    {l1 l2 : List Ref} (hl : List.Forall₂ (fun x y => Ref.key x = Ref.key y) l1 l2) :
    bestFor rr1 l1 = bestFor rr2 l2 := by
  unfold bestFor
  suffices h : ∀ acc : ℚ, l1.foldl (bestStep rr1) acc = l2.foldl (bestStep rr2) acc from h 0
  induction hl with
  | nil => intro acc; rfl
  | cons hxy htail ih =>
    intro acc
    rw [List.foldl_cons, List.foldl_cons, bestStep_key_congr hr hxy, ih]

theorem scoreSum_key_congr {m1 m2 : List Ref}
    (hm : List.Forall₂ (fun x y => Ref.key x = Ref.key y) m1 m2)
    {l1 l2 : List Ref} (hl : List.Forall₂ (fun x y => Ref.key x = Ref.key y) l1 l2) :
    ∀ acc : ℚ, l1.foldl (fun sc rr => sc + bestFor rr m1) acc
      = l2.foldl (fun sc rr => sc + bestFor rr m2) acc := by
  induction hl with
  | nil => intro acc; rfl
  | cons hxy htail ih =>
    intro acc
    rw [List.foldl_cons, List.foldl_cons, bestFor_key_congr hxy hm, ih]

/-- C10: scoring is independent of the display-only fields: two readings
whose references agree on `(book, chapter, v1, v2)` and two songs whose
reference lists agree on `(book, chapter, v1, v2)` (titles, urls, `cfr_raw`
and the `raw` fields may differ arbitrarily) receive the same score, and
`verse_overlap` likewise only depends on the key fields. -/
theorem c10_raw_noninterference (r1 r2 : List Ref) (s1 s2 : Song)
    (hr : List.Forall₂ (fun a b => Ref.key a = Ref.key b) r1 r2)
    (hs : List.Forall₂ (fun a b => Ref.key a = Ref.key b) s1.refs s2.refs) :
    score_song_for_reading r1 s1 = score_song_for_reading r2 s2 ∧
    ∀ a1 a2 b1 b2 : Ref, Ref.key a1 = Ref.key a2 → Ref.key b1 = Ref.key b2 →
      verse_overlap a1 b1 = verse_overlap a2 b2 := by
  constructor
  · unfold score_song_for_reading
    cases hr with
    | nil => rfl
    | cons hxy htail =>
      rw [if_neg (by simp), if_neg (by simp)]
      rw [scoreSum_key_congr hs (List.Forall₂.cons hxy htail) 0]
  · intro a1 a2 b1 b2 ha hb
    exact verse_overlap_key_congr ha hb

/-- Witness for C10: two readings and two songs that agree on all key
fields but differ in every display-only field get the same score. -/
theorem c10_raw_noninterference_witness :
    score_song_for_reading [Ref.mk "is" (some 1) (some 15) (some 16) "rawA"]
      (Song.mk "Title A" "http://a" [Ref.mk "is" (some 1) (some 15) (some 16) "songA"] "Cfr. A") =
    score_song_for_reading [Ref.mk "is" (some 1) (some 15) (some 16) "rawB"]
      (Song.mk "Title B" "http://b" [Ref.mk "is" (some 1) (some 15) (some 16) "songB"] "Cfr. B") :=
  (c10_raw_noninterference
    [Ref.mk "is" (some 1) (some 15) (some 16) "rawA"]
    [Ref.mk "is" (some 1) (some 15) (some 16) "rawB"]
    (Song.mk "Title A" "http://a" [Ref.mk "is" (some 1) (some 15) (some 16) "songA"] "Cfr. A")
    (Song.mk "Title B" "http://b" [Ref.mk "is" (some 1) (some 15) (some 16) "songB"] "Cfr. B")
    (List.Forall₂.cons rfl List.Forall₂.nil)
    (List.Forall₂.cons rfl List.Forall₂.nil)).1

/-!
## Parser lemmas
-/

theorem parseVersesCaptureA_consistent (vs : List Char) :
    (parseVersesCaptureA vs).1.isSome = (parseVersesCaptureA vs).2.isSome := by
  simp only [parseVersesCaptureA]
  split
  · rfl
  · split
    · rfl
    · split
      · rfl
      · split <;> rfl

theorem parseVersesCaptureB_consistent (vs : List Char) :
    (parseVersesCaptureB vs).1.isSome = (parseVersesCaptureB vs).2.isSome := by
  simp only [parseVersesCaptureB]
  split
  · rfl
  · split
    · rfl
    · split <;> rfl

theorem refOfM1_shape {m : M1} {r : Ref} (h : refOfM1 m = some r) :
    r.chapter.isSome = true ∧ r.v1.isSome = r.v2.isSome := by
  simp only [refOfM1] at h
  split at h
  · exact absurd h (by simp)
  · split at h
    · cases h
      exact ⟨rfl, rfl⟩
    · cases h
      exact ⟨rfl, parseVersesCaptureA_consistent _⟩

theorem refOfM2_shape {m : M2} {r : Ref} (h : refOfM2 m = some r) :
    r.chapter.isSome = true ∧ r.v1.isSome = r.v2.isSome := by
  simp only [refOfM2] at h
  split at h
  · exact absurd h (by simp)
  · split at h
    · cases h
      exact ⟨rfl, rfl⟩
    · cases h
      exact ⟨rfl, parseVersesCaptureB_consistent _⟩

theorem grammarA_wellformed {t : List Char} {r : Ref} (h : r ∈ grammarA t) :
    r.chapter.isSome = true ∧ r.v1.isSome = r.v2.isSome := by
  unfold grammarA at h
  obtain ⟨m, _, hr⟩ := List.mem_filterMap.mp h
  exact refOfM1_shape hr

theorem grammarB_wellformed {t : List Char} {r : Ref} (h : r ∈ grammarB t) :
    r.chapter.isSome = true ∧ r.v1.isSome = r.v2.isSome := by
  unfold grammarB at h
  obtain ⟨m, _, hr⟩ := List.mem_filterMap.mp h
  exact refOfM2_shape hr

theorem dedupRefs_sublist (seen : List (String × Option Nat × Option Nat × Option Nat))
    (l : List Ref) : (dedupRefs seen l).Sublist l := by
  induction l generalizing seen with
  | nil => exact List.Sublist.refl _
  | cons r rest ih =>
    unfold dedupRefs
    split_ifs with h
    · exact (ih seen).cons r
    · exact (ih _).cons₂ r

theorem dedupRefs_not_seen (seen : List (String × Option Nat × Option Nat × Option Nat))
    (l : List Ref) : ∀ r ∈ dedupRefs seen l, r.key ∉ seen := by
  induction l generalizing seen with
  | nil => intro r hr; simp [dedupRefs] at hr
  | cons x rest ih =>
    intro r hr
    unfold dedupRefs at hr
    split_ifs at hr with h
    · exact ih seen r hr
    · rcases List.mem_cons.mp hr with rfl | hr2
      · exact h
      · intro hmem
        exact (ih _ r hr2) (List.mem_cons_of_mem _ hmem)

theorem dedupRefs_pairwise (seen : List (String × Option Nat × Option Nat × Option Nat))
    (l : List Ref) : (dedupRefs seen l).Pairwise (fun a b => Ref.key a ≠ Ref.key b) := by
  induction l generalizing seen with
  | nil => simp [dedupRefs]
  | cons x rest ih =>
    unfold dedupRefs
    split_ifs with h
    · exact ih seen
    · refine List.Pairwise.cons ?_ (ih _)
      intro b hb hkey
      apply dedupRefs_not_seen _ _ b hb
      rw [← hkey]
      exact List.mem_cons_self _ _

theorem dedupRefs_isFirst (seen : List (String × Option Nat × Option Nat × Option Nat))
    (l : List Ref) : ∀ r ∈ dedupRefs seen l,
      l.find? (fun x => Ref.key x == Ref.key r) = some r := by
  induction l generalizing seen with
  | nil => intro r hr; simp [dedupRefs] at hr
  | cons x rest ih =>
    intro r hr
    unfold dedupRefs at hr
    split_ifs at hr with h
    · have hne : Ref.key x ≠ Ref.key r := by
        intro he
        exact (dedupRefs_not_seen seen rest r hr) (he ▸ h)
      rw [List.find?_cons_of_neg _ (by simp [hne])]
      exact ih seen r hr
    · rcases List.mem_cons.mp hr with rfl | hr2
      · rw [List.find?_cons_of_pos _ (by simp)]
      · have hne : Ref.key x ≠ Ref.key r := by
          intro he
          apply dedupRefs_not_seen _ _ r hr2
          rw [← he]
          exact List.mem_cons_self _ _
        rw [List.find?_cons_of_neg _ (by simp [hne])]
        exact ih _ r hr2

theorem dedupRefs_covers (seen : List (String × Option Nat × Option Nat × Option Nat))
    (l : List Ref) : ∀ r ∈ l, r.key ∉ seen → ∃ q ∈ dedupRefs seen l, Ref.key q = Ref.key r := by
  induction l generalizing seen with
  | nil => intro r hr; simp at hr
  | cons x rest ih =>
    intro r hr hk
    unfold dedupRefs
    split_ifs with h
    · rcases List.mem_cons.mp hr with rfl | hr2
      · exact absurd h hk
      · exact ih seen r hr2 hk
    · rcases List.mem_cons.mp hr with rfl | hr2
      · exact ⟨_, List.mem_cons_self _ _, rfl⟩
      · by_cases hxk : Ref.key r = Ref.key x
        · exact ⟨x, List.mem_cons_self _ _, hxk.symm⟩
        · obtain ⟨q, hq, hqk⟩ := ih (x.key :: seen) r hr2 (by
            intro hc
            rcases List.mem_cons.mp hc with h1 | h1
            · exact hxk h1
            · exact hk h1)
          exact ⟨q, List.mem_cons_of_mem _ hq, hqk⟩

/-!
## Claim theorems for the parser
-/

/-- C3 (code bug): the verse-specifier regex of Grammar A captures `"15"`
for the input `"Is 1, 15 e 16"` — the first alternative `[\d\-–]+` of the
`verses` group accepts any leading digit run and thereby shadows the
`[\d]+(?:\s*e\s*[\d]+)?` alternative, so the "N e M" branch of the verse
processing (present in the code, lines 162-164 of `app.py`) is unreachable
in Grammar A, and the parse yields `v1 = v2 = 15` instead of the claimed
`v1 = 15, v2 = 16`. -/
theorem c3_e_range_shadowed_in_grammarA :
    parse_reference_flexible "Is 1, 15 e 16" =
      [Ref.mk "is" (some 1) (some 15) (some 15) "Is 1, 15"] := by
  decide

/-- C5 counterexample: the parser accepts chapter `0` and verse `0` (the
digit patterns match `"0"` and `int("0") = 0`), so the emitted chapter and
verses are not always positive integers. -/
theorem c5_counterexample :
    ((parse_reference_flexible "Is 0, 0").all
      (fun r => r.chapter.all (fun c => decide (0 < c)) &&
        r.v1.all (fun v => decide (0 < v)))) = false := by
  decide

/-- C5 (amended): every Reference emitted by the parser has a chapter
(never verses without a chapter), and its `v1` and `v2` are either both
absent or both set; chapter and verses are nonnegative integers (they are
digit strings), but not necessarily positive — `"Is 0, 0"` yields zeros. -/
theorem c5_parse_wellformed (text : String) (r : Ref)
    (h : r ∈ parse_reference_flexible text) :
    r.chapter.isSome = true ∧ r.v1.isSome = r.v2.isSome := by
  have h2 : r ∈ rawRefStream text :=
    (dedupRefs_sublist [] (rawRefStream text)).subset h
  rcases List.mem_append.mp h2 with hA | hB
  · exact grammarA_wellformed hA
  · exact grammarB_wellformed hB

/-- Witness for C5 (amended) at the reference parsed from `"Gv 8,31-36"`. -/
theorem c5_parse_wellformed_witness :
    (Ref.mk "gv" (some 8) (some 31) (some 36) "Gv 8,31-36").chapter.isSome = true ∧
    (Ref.mk "gv" (some 8) (some 31) (some 36) "Gv 8,31-36").v1.isSome =
      (Ref.mk "gv" (some 8) (some 31) (some 36) "Gv 8,31-36").v2.isSome :=
  c5_parse_wellformed "Gv 8,31-36"
    (Ref.mk "gv" (some 8) (some 31) (some 36) "Gv 8,31-36") (by decide)

/-- C7: the parser's output is the concatenation of both grammars' results
de-duplicated by `(book, chapter, v1, v2)`: it contains no two references
with equal keys, it is a sublist of the concatenated stream (relative order
of kept references is preserved), every kept reference is the first
occurrence of its key in the stream, and every key of the stream survives. -/
theorem c7_parse_dedup (text : String) :
    (parse_reference_flexible text).Pairwise (fun a b => Ref.key a ≠ Ref.key b) ∧
    (parse_reference_flexible text).Sublist (rawRefStream text) ∧
    (∀ r ∈ parse_reference_flexible text,
      (rawRefStream text).find? (fun x => Ref.key x == Ref.key r) = some r) ∧
    (∀ r ∈ rawRefStream text,
      ∃ q ∈ parse_reference_flexible text, Ref.key q = Ref.key r) := by
  refine ⟨dedupRefs_pairwise [] _, dedupRefs_sublist [] _, ?_, ?_⟩
  · exact fun r hr => dedupRefs_isFirst [] _ r hr
  · intro r hr
    exact dedupRefs_covers [] _ r hr (by simp)

/-- Witness for C7: instantiated at `"Gv 8,31-36 e Gv 8,31-36"` — a text in
which Grammar A extracts the same reference twice; the kept reference is the
first occurrence of its key in the raw stream. -/
theorem c7_parse_dedup_witness :
    (rawRefStream "Gv 8,31-36 e Gv 8,31-36").find?
      (fun x => Ref.key x ==
        Ref.key (Ref.mk "gv" (some 8) (some 31) (some 36) "Gv 8,31-36")) =
      some (Ref.mk "gv" (some 8) (some 31) (some 36) "Gv 8,31-36") :=
  (c7_parse_dedup "Gv 8,31-36 e Gv 8,31-36").2.2.1
    (Ref.mk "gv" (some 8) (some 31) (some 36) "Gv 8,31-36") (by decide)

/-- C8: parsing `"Isaia dal capitolo 30 vv 15 e 16"` yields exactly one
Reference `{book := "is", chapter := 30, v1 := 15, v2 := 16}` (extracted by
Grammar B over the lowercased text — its `vtext` class captures `"15 e 16"`
whole — while Grammar A contributes no reference for this input). -/
theorem c8_parse_discursive_example :
    parse_reference_flexible "Isaia dal capitolo 30 vv 15 e 16" =
      [Ref.mk "is" (some 30) (some 15) (some 16) "isaia dal capitolo 30 vv 15 e 16"] ∧
    grammarA (pyClean (String.toList "Isaia dal capitolo 30 vv 15 e 16")) = [] := by
  constructor
  · decide
  · decide
